import Mathlib

/-!
# Verification of the offline-first sync engine core

This file is a shallow embedding, in Lean 4, of the core of the
`firebase-skeleton` offline-first synchronization engine
(`src/data/offline-first/`): the scope keys (`types.ts`), the outbox queue
(`outbox.ts`), the outbox processor with its retry backoff
(the processor half of `networkStatus.ts`), the conflict store
(`conflicts.ts`), the default conflict detector
(`defaultConflictDetector.ts`), the apply engine (`applyEngine.ts`), the
delta runner (`deltaRunner.ts`) and the example delta handler
(`exampleDeltaHandler.ts`).

Modelling conventions:
* SQLite tables become Lean lists of rows; SQL `UPDATE ... WHERE` becomes a
  `List.map` that rewrites the rows matching the `WHERE` clause and keeps the
  others; `SELECT ... ORDER BY ... LIMIT` becomes filter + `insertionSort` +
  `take`.
* Timestamps (epoch milliseconds, `Date.now()` / `nowMs()`) are `Int` values
  passed explicitly; `Math.random()` draws are explicit `ℚ` parameters in
  `[0, 1)`; UUID generation is an explicit `String` parameter.
* JSON payload values are modelled by the `Json` inductive below;
  `JSON.stringify` is `Json.encode` (string escaping is not modelled, the
  payloads considered contain no quote or backslash characters).
  Rows store the serialized string exactly as the SQLite columns do.
* Asynchronous code is single-threaded and cooperative in the source
  (§5 of the spec), so each exported operation is modelled as a pure
  function from the pre-state to the post-state.
* Fallible handler calls return `Except String`; a thrown exception is an
  `Except.error`.
-/

/-! ## JSON values (payloads are `unknown` JSON-serializable values in the source) -/

mutual

inductive Json where
  | null : Json
  | bool : Bool → Json
  | num : Int → Json
  | str : String → Json
  | obj : JsonFields → Json
deriving DecidableEq

inductive JsonFields where
  | nil : JsonFields
  | cons : String → Json → JsonFields → JsonFields
deriving DecidableEq

end

/-- Quote a string as a JSON string literal (escaping not modelled). -/
def jsonQuote (s : String) : String := "\"" ++ s ++ "\""

mutual

/-- `JSON.stringify` on the modelled JSON fragment. -/
def Json.encode : Json → String
  | .null => "null"
  | .bool true => "true"
  | .bool false => "false"
  | .num n => toString n
  | .str s => jsonQuote s
  | .obj fs => "\x7b" ++ JsonFields.encode fs ++ "\x7d"

def JsonFields.encode : JsonFields → String
  | .nil => ""
  | .cons k v .nil => jsonQuote k ++ ":" ++ Json.encode v
  | .cons k v (.cons k' v' rest) =>
      jsonQuote k ++ ":" ++ Json.encode v ++ "," ++ JsonFields.encode (.cons k' v' rest)

end

/-- Field lookup on a JSON object (`obj.field` in JS). -/
def JsonFields.lookup : JsonFields → String → Option Json
  | .nil, _ => none
  | .cons k v rest, key => if k = key then some v else rest.lookup key

/-- Field access on a JSON value: `none` plays the role of `undefined`. -/
def Json.getField : Json → String → Option Json
  | .obj fs, key => fs.lookup key
  | _, _ => none

/-! ## Scope and scope keys (`types.ts`) -/

/-- `Scope` from `types.ts`: `{ type: 'global' } | { type: string; id?: string }`. -/
structure Scope where
  type : String
  id : Option String
deriving DecidableEq

/-- `scopeKey` from `types.ts`.  A JS string is falsy when empty, so
`typedScope.id ? type + ":" + id : type` tests for a present, non-empty id. -/
def scopeKey (scope : Scope) : String :=
  if scope.type = "global" then "global"
  else
    match scope.id with
    | some i => if i ≠ "" then scope.type ++ ":" ++ i else scope.type
    | none => scope.type

/-! ## Backoff (`networkStatus.ts`, `calculateBackoff` / `isBackoffElapsed`) -/

/-- `OutboxProcessorConfig` from `networkStatus.ts`. -/
structure OutboxProcessorConfig where
  batchSize : Nat
  maxAttempts : Nat
  backoffMs : ℚ
  maxBackoffMs : ℚ

/-- The default config (`DEFAULT_CONFIG`). -/
def defaultProcessorConfig : OutboxProcessorConfig :=
  { batchSize := 10, maxAttempts := 5, backoffMs := 1000, maxBackoffMs := 60000 }

/-- `calculateBackoff` from `networkStatus.ts`:
`exponentialDelay = min(baseMs * 2^attemptCount, maxMs)`, then
`jitter = exponentialDelay * 0.2 * (rand * 2 - 1)` with `rand = Math.random()`,
and the result is `max(0, exponentialDelay + jitter)`. -/
def calculateBackoff (attemptCount : Nat) (baseMs maxMs : ℚ) (rand : ℚ) : ℚ :=
  let exponentialDelay := min (baseMs * 2 ^ attemptCount) maxMs
  let jitter := exponentialDelay * (1 / 5) * (rand * 2 - 1)
  max 0 (exponentialDelay + jitter)

theorem calculateBackoff_eq_factor (attemptCount : Nat) (baseMs maxMs rand : ℚ) :
    calculateBackoff attemptCount baseMs maxMs rand =
      max 0 (min (baseMs * 2 ^ attemptCount) maxMs * (1 + (rand * 2 - 1) / 5)) := by
  unfold calculateBackoff
  ring_nf

/-! ## Outbox rows (`outbox.ts`) -/

/-- `OutboxOpType` from `outbox.ts`. -/
inductive OutboxOpType where
  | upsert
  | delete
  | custom
deriving DecidableEq

/-- `OutboxOpState` from `outbox.ts`. -/
inductive OutboxOpState where
  | pending
  | inFlight
  | succeeded
  | failed
  | blocked
deriving DecidableEq

/-- An error record `{ code, message }` stored in `last_error_json`. -/
structure PushError where
  code : String
  message : String
deriving DecidableEq

/-- `OutboxOp` from `outbox.ts`: one row of the `outbox_ops` table.
`payloadJson` holds the `payload_json` column (the `safeJsonEncode` of the
enqueued payload), `lastError` the decoded `last_error_json` column. -/
structure OutboxOp where
  id : String
  scopeKey : String
  entityKey : String
  opType : OutboxOpType
  idempotencyKey : String
  payloadJson : String
  attemptCount : Nat
  state : OutboxOpState
  lastError : Option PushError
  createdAt : Int
  updatedAt : Int
deriving DecidableEq

/-- `isBackoffElapsed` from `networkStatus.ts`; `now` is `Date.now()` and
`rand` the `Math.random()` draw made inside `calculateBackoff`. -/
def isBackoffElapsed (op : OutboxOp) (cfg : OutboxProcessorConfig) (now : Int) (rand : ℚ) :
    Bool :=
  if op.attemptCount = 0 then true
  else
    decide (calculateBackoff (op.attemptCount - 1) cfg.backoffMs cfg.maxBackoffMs rand ≤
      ((now - op.updatedAt : Int) : ℚ))

/-- C2 counterexample: with the default config (base 1000 ms, cap 60000 ms),
at attempt 6 and jitter draw `0.75` the computed backoff delay is 66000 ms,
which exceeds `maxDelay = 60000`: the claim "never exceeds maxDelay" is false
because the jitter is added after the `min` clamp. -/
theorem calculateBackoff_can_exceed_maxDelay :
    (0 : ℚ) ≤ 3 / 4 ∧ (3 / 4 : ℚ) < 1 ∧
      defaultProcessorConfig.maxBackoffMs <
        calculateBackoff 6 defaultProcessorConfig.backoffMs
          defaultProcessorConfig.maxBackoffMs (3 / 4) := by
  refine ⟨by norm_num, by norm_num, ?_⟩
  norm_num [calculateBackoff, defaultProcessorConfig, min_def, max_def]

/-- C2 (amended): for every config with non-negative base and cap and every
jitter draw `rand ∈ [0, 1)`, the backoff delay is non-decreasing in the
attempt count and never exceeds `1.2 · maxDelay` (the exponential part is
capped at `maxDelay` before the ±20% jitter is applied), and an op with
`attemptCount = 0` is always considered ready by `isBackoffElapsed`. -/
theorem backoff_monotone_bounded_ready (cfg : OutboxProcessorConfig) (a b : Nat) (rand : ℚ)
    (hbase : 0 ≤ cfg.backoffMs) (hmax : 0 ≤ cfg.maxBackoffMs)
    (hr0 : 0 ≤ rand) (hr1 : rand < 1) (hab : a ≤ b) :
    calculateBackoff a cfg.backoffMs cfg.maxBackoffMs rand ≤
      calculateBackoff b cfg.backoffMs cfg.maxBackoffMs rand ∧
    calculateBackoff a cfg.backoffMs cfg.maxBackoffMs rand ≤ 6 / 5 * cfg.maxBackoffMs ∧
    (∀ (op : OutboxOp) (now : Int), op.attemptCount = 0 →
      isBackoffElapsed op cfg now rand = true) := by
  have hf0 : (0 : ℚ) ≤ 1 + (rand * 2 - 1) / 5 := by linarith
  have hf65 : 1 + (rand * 2 - 1) / 5 ≤ 6 / 5 := by linarith
  have hd0 : ∀ n : Nat, (0 : ℚ) ≤ min (cfg.backoffMs * 2 ^ n) cfg.maxBackoffMs := by
    intro n
    exact le_min (by positivity) hmax
  have hdmono : min (cfg.backoffMs * 2 ^ a) cfg.maxBackoffMs ≤
      min (cfg.backoffMs * 2 ^ b) cfg.maxBackoffMs := by
    refine min_le_min ?_ le_rfl
    exact mul_le_mul_of_nonneg_left (pow_le_pow_right₀ one_le_two hab) hbase
  refine ⟨?_, ?_, ?_⟩
  · rw [calculateBackoff_eq_factor, calculateBackoff_eq_factor]
    exact max_le_max le_rfl (mul_le_mul_of_nonneg_right hdmono hf0)
  · rw [calculateBackoff_eq_factor]
    refine max_le (by positivity) ?_
    calc min (cfg.backoffMs * 2 ^ a) cfg.maxBackoffMs * (1 + (rand * 2 - 1) / 5) ≤
        cfg.maxBackoffMs * (6 / 5) :=
          mul_le_mul (min_le_right _ _) hf65 hf0 hmax
      _ = 6 / 5 * cfg.maxBackoffMs := by ring
  · intro op now h0
    simp [isBackoffElapsed, h0]

/-- Witness for `backoff_monotone_bounded_ready` at the default config,
attempts 2 ≤ 3 and jitter draw 1/2. -/
theorem backoff_monotone_bounded_ready_witness :
    ((0 : ℚ) ≤ defaultProcessorConfig.backoffMs ∧
      (0 : ℚ) ≤ defaultProcessorConfig.maxBackoffMs ∧
      (0 : ℚ) ≤ 1 / 2 ∧ (1 / 2 : ℚ) < 1 ∧ 2 ≤ 3) ∧
    (calculateBackoff 2 defaultProcessorConfig.backoffMs
        defaultProcessorConfig.maxBackoffMs (1 / 2) ≤
      calculateBackoff 3 defaultProcessorConfig.backoffMs
        defaultProcessorConfig.maxBackoffMs (1 / 2) ∧
    calculateBackoff 2 defaultProcessorConfig.backoffMs
        defaultProcessorConfig.maxBackoffMs (1 / 2) ≤
      6 / 5 * defaultProcessorConfig.maxBackoffMs ∧
    (∀ (op : OutboxOp) (now : Int), op.attemptCount = 0 →
      isBackoffElapsed op defaultProcessorConfig now (1 / 2) = true)) :=
  ⟨⟨by norm_num [defaultProcessorConfig], by norm_num [defaultProcessorConfig],
      by norm_num, by norm_num, by norm_num⟩,
    backoff_monotone_bounded_ready defaultProcessorConfig 2 3 (1 / 2)
      (by norm_num [defaultProcessorConfig]) (by norm_num [defaultProcessorConfig])
      (by norm_num) (by norm_num) (by norm_num)⟩

/-- C10: `scopeKey` is not injective.  The distinct scopes `{type: 'a:b'}` and
`{type: 'a', id: 'b'}` serialize to the same key `"a:b"`, and
`{type: 'global'}` and `{type: 'global', id: 'x'}` both serialize to
`"global"`, so each pair shares one partition in every infrastructure table. -/
theorem scopeKey_not_injective :
    ((⟨"a:b", none⟩ : Scope) ≠ ⟨"a", some ("b")⟩ ∧
      scopeKey ⟨"a:b", none⟩ = scopeKey ⟨"a", some ("b")⟩) ∧
    ((⟨"global", none⟩ : Scope) ≠ ⟨"global", some ("x")⟩ ∧
      scopeKey ⟨"global", none⟩ = scopeKey ⟨"global", some ("x")⟩) := by
  refine ⟨⟨by decide, ?_⟩, ⟨by decide, ?_⟩⟩ <;> rfl

/-! ## Entity-scoped outbox lookups (`outbox.ts`, `hasPendingOpsForEntity`) -/

/-- Is `needle` a prefix of `hay`? (helper for the SQL `LIKE` scan). -/
def charsPrefix : List Char → List Char → Bool
  | [], _ => true
  | _ :: _, [] => false
  | a :: as, b :: bs => a = b && charsPrefix as bs

/-- Does `needle` occur as a contiguous substring of `hay`? -/
def charsContains (needle : List Char) : List Char → Bool
  | [] => charsPrefix needle []
  | b :: bs => charsPrefix needle (b :: bs) || charsContains needle bs

/-- `column LIKE '%' || needle || '%'` in SQLite: substring containment,
case-insensitive on ASCII letters (hence the `toLower`).  The `%`/`_`
wildcards inside the needle are not modelled (no entity id used below
contains them). -/
def likeContains (hay needle : String) : Bool :=
  charsContains (needle.toList.map Char.toLower) (hay.toList.map Char.toLower)

/-- The LIKE pattern body used by the entity lookups:
`'%"id":"' + entityId + '"%'`. -/
def idPattern (entityId : String) : String := "\"id\":\"" ++ entityId ++ "\"" 

/-- `state IN ('pending', 'in_flight')`. -/
def opStateUnsynced : OutboxOpState → Bool
  | .pending => true
  | .inFlight => true
  | _ => false

/-- `Outbox.hasPendingOpsForEntity` from `outbox.ts`: counts rows with the
same scope key and entity key in state `pending`/`in_flight` whose
`payload_json` column matches `LIKE '%"id":"<entityId>"%'`. -/
def hasPendingOpsForEntity (scope : Scope) (entityKey entityId : String)
    (outbox : List OutboxOp) : Bool :=
  outbox.any fun op =>
    decide (op.scopeKey = scopeKey scope) && decide (op.entityKey = entityKey) &&
      opStateUnsynced op.state && likeContains op.payloadJson (idPattern entityId)

/-! ## Delta changes (`adapters.ts`) -/

/-- `DeltaChange` from `adapters.ts`. -/
inductive DeltaChange where
  | upsert (entityKey entityId : String) (data : Json) (updatedAt : Int)
  | delete (entityKey entityId : String) (updatedAt : Int)
deriving DecidableEq

/-! ## Default conflict detector (`defaultConflictDetector.ts`) -/

/-- `DefaultConflictDetector.shouldApplyChange`: deletes always apply; an
upsert applies iff there is no pending/in-flight outbox op matching the
entity lookup above. -/
def shouldApplyChange (scope : Scope) (change : DeltaChange) (outbox : List OutboxOp) :
    Bool :=
  match change with
  | .delete _ _ _ => true
  | .upsert entityKey entityId _ _ =>
      !hasPendingOpsForEntity scope entityKey entityId outbox

/-! ## Conflict store (`conflicts.ts`) -/

/-- `Conflict` from `conflicts.ts`: one row of the `conflicts` table. -/
structure Conflict where
  id : String
  scopeKey : String
  entityKey : String
  entityId : String
  localVersionJson : String
  remoteVersionJson : String
  createdAt : Int
  resolvedAt : Option Int
deriving DecidableEq

/-- The row filter
`scope_key = ? AND entity_key = ? AND entity_id = ? AND resolved_at IS NULL`
shared by `hasConflict` and the duplicate check of `createConflict`. -/
def conflictMatches (scope : Scope) (entityKey entityId : String) (c : Conflict) : Bool :=
  decide (c.scopeKey = scopeKey scope) && decide (c.entityKey = entityKey) &&
    decide (c.entityId = entityId) && decide (c.resolvedAt = none)

/-- `hasConflict` from `conflicts.ts`. -/
def hasConflict (scope : Scope) (entityKey entityId : String)
    (conflicts : List Conflict) : Bool :=
  conflicts.any (conflictMatches scope entityKey entityId)

/-- `createConflict` from `conflicts.ts`.  The version arguments are the
already-serialized JSON columns (the source takes the values and calls
`safeJsonEncode` on them; callers below pass `Json.encode` of the values).
If an unresolved conflict row for the entity already exists, that row's
versions and `created_at` are updated in place; otherwise a new row with the
fresh id `conflictId` is inserted. -/
def createConflict (scope : Scope) (entityKey entityId : String)
    (localVersionJson remoteVersionJson : String) (conflictId : String) (now : Int)
    (conflicts : List Conflict) : List Conflict :=
  match conflicts.find? (conflictMatches scope entityKey entityId) with
  | some existing =>
      conflicts.map fun c =>
        if c.id = existing.id then
          { c with localVersionJson := localVersionJson,
                   remoteVersionJson := remoteVersionJson, createdAt := now }
        else c
  | none =>
      conflicts ++ [{ id := conflictId, scopeKey := scopeKey scope,
                      entityKey := entityKey, entityId := entityId,
                      localVersionJson := localVersionJson,
                      remoteVersionJson := remoteVersionJson,
                      createdAt := now, resolvedAt := none }]

/-! ## The local store (`db.ts` tables used by the claims) -/

/-- One row of `sync_cursors`. -/
structure CursorRow where
  scopeKey : String
  collectionKey : String
  cursor : String
  updatedAt : Int
deriving DecidableEq

/-- One row of the example entity table `example_items`. -/
structure ExampleRow where
  id : String
  name : String
  updatedAt : Int
  createdAt : Int
deriving DecidableEq

/-- The SQLite database: the infrastructure tables plus the example entity
table (the `kv` table is unused by the claims). -/
structure DB where
  outbox : List OutboxOp
  conflicts : List Conflict
  exampleItems : List ExampleRow
  cursors : List CursorRow
deriving DecidableEq

/-- The `SELECT *` JSON view of an `example_items` row (snake_case columns),
as returned by the fallback branch of `getLocalVersion`. -/
def exampleRowJson (r : ExampleRow) : Json :=
  Json.obj (.cons ("id") (.str r.id) (.cons ("name") (.str r.name)
    (.cons ("updated_at") (.num r.updatedAt) (.cons ("created_at") (.num r.createdAt) .nil))))

/-- `DefaultConflictDetector.getLocalVersion`: the newest pending/in-flight
outbox payload whose `payload_json` matches the entity id pattern (note: the
source query has no scope filter), else the `example_items` row when
`entityKey = 'example_items'`, else `null`.  The source decodes the stored
string with `safeJsonDecode` and `createConflict` re-encodes it, which is the
identity on the stored JSON text, so the model returns the string itself. -/
def getLocalVersion (entityKey entityId : String) (db : DB) : Option String :=
  let rows := db.outbox.filter fun op =>
    decide (op.entityKey = entityKey) && opStateUnsynced op.state &&
      likeContains op.payloadJson (idPattern entityId)
  match (rows.insertionSort fun a b => b.createdAt ≤ a.createdAt).head? with
  | some op => some op.payloadJson
  | none =>
      if entityKey = "example_items" then
        match db.exampleItems.find? (fun r => r.id = entityId) with
        | some row => some (Json.encode (exampleRowJson row))
        | none => none
      else none

/-- `DefaultConflictDetector.onConflictDetected`: does nothing for deletes;
for an upsert, returns unchanged if an unresolved conflict row already exists
(`hasConflict` guard), otherwise records a conflict whose local version is
the best available local version (falling back to the stub
`{ id: change.entityId }`) and whose remote version is the change's data.
`conflictId` is the UUID generated inside `createConflict` and `now` the
`nowMs()` timestamp. -/
def onConflictDetected (scope : Scope) (change : DeltaChange) (conflictId : String)
    (now : Int) (db : DB) : DB :=
  match change with
  | .delete _ _ _ => db
  | .upsert entityKey entityId data _ =>
      if hasConflict scope entityKey entityId db.conflicts then db
      else
        let localVersionJson :=
          match getLocalVersion entityKey entityId db with
          | some s => s
          | none => Json.encode (Json.obj (.cons ("id") (.str entityId) .nil))
        let conflicts' := createConflict scope entityKey entityId localVersionJson
          (Json.encode data) conflictId now db.conflicts
        { db with conflicts := conflicts' }

/-! ## C3: the entity membership test is a substring scan -/

/-- A payload enqueued for entity `"a"` that contains a nested reference
`ref: { id: "b" }` to another entity. -/
def substringScanPayload : Json :=
  Json.obj (.cons ("id") (.str ("a"))
    (.cons ("ref") (Json.obj (.cons ("id") (.str ("b")) .nil)) .nil))

/-- The concrete pending outbox row used to exhibit the substring-scan
defect: an upsert op for entity `"a"` (its payload's top-level `id` is
`"a"`), not for entity `"b"`. -/
def substringScanOp : OutboxOp :=
  { id := "op1", scopeKey := "global", entityKey := "example_items",
    opType := .upsert, idempotencyKey := "k1",
    payloadJson := Json.encode substringScanPayload,
    attemptCount := 0, state := .pending, lastError := none,
    createdAt := 1, updatedAt := 1 }

/-- C3: deletes always apply, but the upsert direction of the claim fails:
`shouldApplyChange` tests entity membership with
`payload_json LIKE '%"id":"<entityId>"%'`, a substring scan over the
serialized payload.  With a single pending op for entity `"a"` whose payload
nests `ref: { id: "b" }`, an incoming upsert for entity `"b"` is reported as
conflicting (`shouldApplyChange = false`) although the outbox holds no op
for `(scope, entityKey, "b")` — its only op is for entity `"a"`. -/
theorem shouldApplyChange_substring_false_positive :
    (∀ (scope : Scope) (entityKey entityId : String) (t : Int)
        (outbox : List OutboxOp),
      shouldApplyChange scope (.delete entityKey entityId t) outbox = true) ∧
    Json.getField substringScanPayload ("id") = some (Json.str ("a")) ∧
    Json.getField substringScanPayload ("id") ≠ some (Json.str ("b")) ∧
    shouldApplyChange ⟨"global", none⟩
      (.upsert ("example_items") ("b") Json.null 5) [substringScanOp] = false := by
  exact ⟨fun _ _ _ _ _ => rfl, by decide, by decide, by decide⟩

/-! ## C1: a second conflict detection does not update the recorded row -/

/-- The conflict row recorded by a first detection for entity `e1`
(remote version `{ id: "e1", name: "r1" }`, detected at time 100). -/
def firstDetectionConflict : Conflict :=
  { id := "c1", scopeKey := "global", entityKey := "example_items",
    entityId := "e1",
    localVersionJson := Json.encode (Json.obj (.cons ("id") (.str ("e1")) .nil)),
    remoteVersionJson := Json.encode (Json.obj (.cons ("id") (.str ("e1"))
      (.cons ("name") (.str ("r1")) .nil))),
    createdAt := 100, resolvedAt := none }

/-- The remote data delivered by the second detection
(`{ id: "e1", name: "r2" }`). -/
def secondDetectionData : Json :=
  Json.obj (.cons ("id") (.str ("e1")) (.cons ("name") (.str ("r2")) .nil))

/-- The database between the two detections: one unresolved conflict row. -/
def firstDetectionDb : DB :=
  { outbox := [], conflicts := [firstDetectionConflict], exampleItems := [],
    cursors := [] }

/-- C1 counterexample: with one unresolved Conflict row for
`(global, example_items, e1)` from a first detection, a second detection via
`onConflictDetected` carrying fresh remote data and timestamp 200 leaves the
database entirely unchanged: the row's remote version is still the first
detection's and its timestamp is still 100, so the versions are not updated
to the latest detection (the early `hasConflict` return skips
`createConflict`'s update path). -/
theorem onConflictDetected_second_detection_stale :
    onConflictDetected ⟨"global", none⟩
        (.upsert ("example_items") ("e1") secondDetectionData 200) ("c2") 200
        firstDetectionDb = firstDetectionDb ∧
    (firstDetectionDb.conflicts.filter
        (conflictMatches ⟨"global", none⟩ ("example_items") ("e1"))).length = 1 ∧
    firstDetectionConflict.remoteVersionJson ≠ Json.encode secondDetectionData ∧
    firstDetectionConflict.createdAt ≠ 200 := by
  exact ⟨by decide, by decide, by decide, by decide⟩

/-- C1 (amended): a second detection for the same `(scope, entityKey,
entityId)` while an unresolved Conflict row exists still results in exactly
one unresolved row — no duplicate is inserted — but `onConflictDetected`
returns early on its `hasConflict` guard and leaves the row (and the whole
database) unchanged, so the recorded versions and timestamp remain those of
the first detection rather than being updated to the latest detection. -/
theorem onConflictDetected_dedup_unchanged (scope : Scope) (entityKey entityId : String)
    (data : Json) (t : Int) (conflictId : String) (now : Int) (db : DB)
    (h : (db.conflicts.filter (conflictMatches scope entityKey entityId)).length = 1) :
    onConflictDetected scope (.upsert entityKey entityId data t) conflictId now db = db ∧
    ((onConflictDetected scope (.upsert entityKey entityId data t) conflictId now
        db).conflicts.filter (conflictMatches scope entityKey entityId)).length = 1 := by
  have hne : db.conflicts.filter (conflictMatches scope entityKey entityId) ≠ [] := by
    intro hnil
    rw [hnil] at h
    simp at h
  obtain ⟨c, hc⟩ := List.exists_mem_of_ne_nil _ hne
  have hmem := List.mem_filter.mp hc
  have hhas : hasConflict scope entityKey entityId db.conflicts = true := by
    simp only [hasConflict, List.any_eq_true]
    exact ⟨c, hmem.1, hmem.2⟩
  have heq : onConflictDetected scope (.upsert entityKey entityId data t)
      conflictId now db = db := by
    simp [onConflictDetected, hhas]
  refine ⟨heq, ?_⟩
  rw [heq]
  exact h

/-- Witness for `onConflictDetected_dedup_unchanged` at the concrete
one-conflict database. -/
theorem onConflictDetected_dedup_unchanged_witness :
    (firstDetectionDb.conflicts.filter
        (conflictMatches ⟨"global", none⟩ ("example_items") ("e1"))).length = 1 ∧
    (onConflictDetected ⟨"global", none⟩
        (.upsert ("example_items") ("e1") secondDetectionData 300) ("c9") 300
        firstDetectionDb = firstDetectionDb ∧
      ((onConflictDetected ⟨"global", none⟩
          (.upsert ("example_items") ("e1") secondDetectionData 300) ("c9") 300
          firstDetectionDb).conflicts.filter
          (conflictMatches ⟨"global", none⟩ ("example_items") ("e1"))).length = 1) :=
  ⟨by decide,
    onConflictDetected_dedup_unchanged ⟨"global", none⟩ ("example_items") ("e1")
      secondDetectionData 300 ("c9") 300 firstDetectionDb (by decide)⟩

/-! ## Example delta handler (`exampleDeltaHandler.ts`) -/

/-- `INSERT OR REPLACE INTO example_items`: replace the row carrying the
primary key `r.id` when present, else insert `r`. -/
def putExampleItem (r : ExampleRow) : List ExampleRow → List ExampleRow
  | [] => [r]
  | x :: xs => if x.id = r.id then r :: xs else x :: putExampleItem r xs

/-- `ExampleDeltaHandler.applyUpsert` on the `example_items` table:
`name = itemData.name ?? 'Unnamed Item'`,
`createdAt = itemData.createdAt ?? updatedAt`, and
`finalUpdatedAt = itemData.updatedAt && itemData.updatedAt > updatedAt ?
itemData.updatedAt : updatedAt` (a numeric JS value is truthy iff non-zero).
Payload fields of unexpected JSON type fall back to the defaults (the JS
coercions on such values are not modelled). -/
def exampleApplyUpsert (entityKey entityId : String) (data : Json) (updatedAt : Int)
    (items : List ExampleRow) : List ExampleRow :=
  if entityKey ≠ "example_items" then items
  else
    let name := match Json.getField data ("name") with
      | some (Json.str s) => s
      | _ => "Unnamed Item"
    let createdAt := match Json.getField data ("createdAt") with
      | some (Json.num n) => n
      | _ => updatedAt
    let finalUpdatedAt := match Json.getField data ("updatedAt") with
      | some (Json.num u) => if u ≠ 0 ∧ updatedAt < u then u else updatedAt
      | _ => updatedAt
    putExampleItem ⟨entityId, name, finalUpdatedAt, createdAt⟩ items

/-- `ExampleDeltaHandler.applyDelete`:
`DELETE FROM example_items WHERE id = ?` (a no-op on a missing row). -/
def exampleApplyDelete (entityKey entityId : String) (items : List ExampleRow) :
    List ExampleRow :=
  if entityKey ≠ "example_items" then items
  else items.filter fun r => !(decide (r.id = entityId))

/-- Dispatch of one `DeltaChange` through `ExampleDeltaHandler`
(`applyChangeInternal` specialised to the example handler, on the
`example_items` table). -/
def exampleApplyChange (change : DeltaChange) (items : List ExampleRow) :
    List ExampleRow :=
  match change with
  | .upsert entityKey entityId data updatedAt =>
      exampleApplyUpsert entityKey entityId data updatedAt items
  | .delete entityKey entityId _ => exampleApplyDelete entityKey entityId items

theorem putExampleItem_idem (r : ExampleRow) (l : List ExampleRow) :
    putExampleItem r (putExampleItem r l) = putExampleItem r l := by
  induction l with
  | nil => simp [putExampleItem]
  | cons x xs ih =>
    by_cases h : x.id = r.id
    · simp [putExampleItem, h]
    · simp [putExampleItem, h, ih]

theorem exampleApplyUpsert_idem (entityKey entityId : String) (data : Json)
    (updatedAt : Int) (items : List ExampleRow) :
    exampleApplyUpsert entityKey entityId data updatedAt
        (exampleApplyUpsert entityKey entityId data updatedAt items) =
      exampleApplyUpsert entityKey entityId data updatedAt items := by
  by_cases h : entityKey = "example_items"
  · simp only [exampleApplyUpsert, h]
    simp [putExampleItem_idem]
  · simp [exampleApplyUpsert, h]

theorem exampleApplyDelete_idem (entityKey entityId : String) (items : List ExampleRow) :
    exampleApplyDelete entityKey entityId
        (exampleApplyDelete entityKey entityId items) =
      exampleApplyDelete entityKey entityId items := by
  by_cases h : entityKey = "example_items"
  · simp [exampleApplyDelete, h, List.filter_filter]
  · simp [exampleApplyDelete, h]

/-- C7: applying any single delta change twice to an empty store through the
example handler yields the same final `example_items` state as applying it
once: the upserted row is computed from the change alone and
`INSERT OR REPLACE` is idempotent, and deleting a missing row is a no-op. -/
theorem exampleApplyChange_idempotent (change : DeltaChange) :
    exampleApplyChange change (exampleApplyChange change []) =
      exampleApplyChange change [] := by
  cases change with
  | upsert entityKey entityId data updatedAt => exact exampleApplyUpsert_idem ..
  | delete entityKey entityId updatedAt => exact exampleApplyDelete_idem ..

/-! ## Apply engine (`applyEngine.ts`) -/

/-- `DeltaChangeHandler` from `applyEngine.ts`: app-supplied callbacks that
apply one change to the entity tables inside the batch transaction.  A call
either returns the new database or throws (`.error` with the message); a
throwing call leaves no partial effect, matching the eventual batch
rollback. -/
structure DeltaChangeHandler where
  applyUpsert : String → String → Json → Int → DB → Except String DB
  applyDelete : String → String → Int → DB → Except String DB

/-- `ConflictDetector` from `applyEngine.ts`: the read-only conflict test and
the conflict-recording action. -/
structure ConflictDetector where
  shouldApply : Scope → DeltaChange → DB → Bool
  onConflict : Scope → DeltaChange → DB → DB

/-- The `DefaultConflictDetector` instance, with the UUID generated inside
`createConflict` and the `nowMs()` timestamp made explicit. -/
def defaultConflictDetector (conflictId : String) (now : Int) : ConflictDetector :=
  { shouldApply := fun scope change db => shouldApplyChange scope change db.outbox,
    onConflict := fun scope change db => onConflictDetected scope change conflictId now db }

/-- `applyChangeInternal` from `applyEngine.ts`. -/
def applyChangeInternal (change : DeltaChange) (handler : DeltaChangeHandler) (db : DB) :
    Except String DB :=
  match change with
  | .upsert entityKey entityId data updatedAt =>
      handler.applyUpsert entityKey entityId data updatedAt db
  | .delete entityKey entityId updatedAt =>
      handler.applyDelete entityKey entityId updatedAt db

/-- The `for` loop of `applyChanges`: threads the in-transaction database and
the `applied`/`conflicts` counters, collecting thrown errors. -/
def applyChangesGo (scope : Option Scope) (det : Option ConflictDetector)
    (handler : DeltaChangeHandler) :
    List DeltaChange → DB → Nat → Nat → List (DeltaChange × String) →
      DB × Nat × Nat × List (DeltaChange × String)
  | [], db, applied, conflicts, errors => (db, applied, conflicts, errors)
  | change :: rest, db, applied, conflicts, errors =>
      match det, scope, change with
      | some d, some s, .upsert _ _ _ _ =>
          if d.shouldApply s change db then
            match applyChangeInternal change handler db with
            | .ok db' =>
                applyChangesGo scope det handler rest db' (applied + 1) conflicts errors
            | .error e =>
                applyChangesGo scope det handler rest db applied conflicts
                  (errors ++ [(change, e)])
          else
            applyChangesGo scope det handler rest (d.onConflict s change db) applied
              (conflicts + 1) errors
      | _, _, _ =>
          match applyChangeInternal change handler db with
          | .ok db' =>
              applyChangesGo scope det handler rest db' (applied + 1) conflicts errors
          | .error e =>
              applyChangesGo scope det handler rest db applied conflicts
                (errors ++ [(change, e)])

/-- The result record of `applyChanges` plus the database it leaves behind. -/
structure ApplyResult where
  applied : Nat
  conflicts : Nat
  errors : List (DeltaChange × String)
  db : DB
deriving DecidableEq

/-- `applyChanges` from `applyEngine.ts`: the whole batch runs in one
transaction; if any error was collected the transaction is rolled back — the
database reverts to the pre-batch state — and the call reports
`{ applied: 0, conflicts, errors }`; otherwise the new database is kept. -/
def applyChanges (changes : List DeltaChange) (handler : DeltaChangeHandler)
    (scope : Option Scope) (det : Option ConflictDetector) (db : DB) : ApplyResult :=
  match applyChangesGo scope det handler changes db 0 0 [] with
  | (db', applied, conflicts, errors) =>
      if errors.length = 0 then ⟨applied, conflicts, errors, db'⟩
      else ⟨0, conflicts, errors, db⟩

/-- Shared rollback lemma: a batch that reports any error reports
`applied = 0` and leaves the database exactly as before the batch. -/
theorem applyChanges_error_rollback (changes : List DeltaChange)
    (handler : DeltaChangeHandler) (scope : Option Scope)
    (det : Option ConflictDetector) (db : DB)
    (h : (applyChanges changes handler scope det db).errors.length ≠ 0) :
    (applyChanges changes handler scope det db).applied = 0 ∧
    (applyChanges changes handler scope det db).db = db := by
  unfold applyChanges at h ⊢
  rcases hgo : applyChangesGo scope det handler changes db 0 0 [] with
    ⟨db', applied, conflicts, errors⟩
  rw [hgo] at h
  dsimp only at h ⊢
  by_cases he : errors.length = 0
  · rw [if_pos he] at h
    exact absurd he h
  · rw [if_neg he]
    exact ⟨rfl, rfl⟩

/-- The `ExampleDeltaHandler` as a database handler (its two methods update
the `example_items` table and never throw). -/
def exampleDeltaHandler : DeltaChangeHandler :=
  { applyUpsert := fun entityKey entityId data updatedAt db =>
      let items := exampleApplyUpsert entityKey entityId data updatedAt db.exampleItems
      .ok { db with exampleItems := items },
    applyDelete := fun entityKey entityId _ db =>
      let items := exampleApplyDelete entityKey entityId db.exampleItems
      .ok { db with exampleItems := items } }

/-- A deterministic failing stub handler (in the style of the source's stub
adapters): like the example handler, but it throws on entity id `"boom"`. -/
def failingExampleHandler : DeltaChangeHandler :=
  { applyUpsert := fun entityKey entityId data updatedAt db =>
      if entityId = "boom" then .error ("simulated handler failure")
      else
        let items := exampleApplyUpsert entityKey entityId data updatedAt db.exampleItems
        .ok { db with exampleItems := items },
    applyDelete := fun entityKey entityId _ db =>
      let items := exampleApplyDelete entityKey entityId db.exampleItems
      .ok { db with exampleItems := items } }

/-- A pending outbox op for entity `e1`
(payload `{ id: "e1", name: "local" }`). -/
def pendingOpE1 : OutboxOp :=
  { id := "op-e1", scopeKey := "global", entityKey := "example_items",
    opType := .upsert, idempotencyKey := "ik1",
    payloadJson := Json.encode (Json.obj (.cons ("id") (.str ("e1"))
      (.cons ("name") (.str ("local")) .nil))),
    attemptCount := 0, state := .pending, lastError := none,
    createdAt := 1, updatedAt := 1 }

/-- Pre-batch database for the failed-batch scenario: one pending local op
for `e1`, no conflict rows. -/
def conflictThenFailDb : DB :=
  { outbox := [pendingOpE1], conflicts := [], exampleItems := [], cursors := [] }

/-- The two-change page: an upsert for `e1` (conflicts with the pending local
op) followed by an upsert for `"boom"` (on which the handler throws). -/
def conflictThenFailChanges : List DeltaChange :=
  [ .upsert ("example_items") ("e1")
      (Json.obj (.cons ("id") (.str ("e1")) (.cons ("name") (.str ("remote")) .nil))) 10,
    .upsert ("example_items") ("boom")
      (Json.obj (.cons ("id") (.str ("boom")) .nil)) 11 ]

/-- The result of that page through `applyChanges` with the default conflict
detector. -/
def conflictThenFailResult : ApplyResult :=
  applyChanges conflictThenFailChanges failingExampleHandler (some ⟨"global", none⟩)
    (some (defaultConflictDetector ("c-e1") 10)) conflictThenFailDb

/-- C9: a batch whose application collects any error reports `applied = 0`
and leaves the database exactly as before the batch, so Conflict rows
written by `onConflictDetected` inside the transaction are rolled back while
the returned `conflicts` counter keeps counting them; concretely, the
conflict-then-throw page reports `conflicts = 1` and `applied = 0` although
zero Conflict rows are persisted after the batch — the reported count
exceeds the persisted rows. -/
theorem applyChanges_failed_batch_conflict_count
    (changes : List DeltaChange) (handler : DeltaChangeHandler) (scope : Option Scope)
    (det : Option ConflictDetector) (db : DB)
    (h : (applyChanges changes handler scope det db).errors.length ≠ 0) :
    ((applyChanges changes handler scope det db).applied = 0 ∧
      (applyChanges changes handler scope det db).db = db) ∧
    (conflictThenFailResult.conflicts = 1 ∧
      conflictThenFailResult.errors.length = 1 ∧
      conflictThenFailResult.applied = 0 ∧
      conflictThenFailResult.db.conflicts.length = 0) := by
  refine ⟨applyChanges_error_rollback changes handler scope det db h, ?_⟩
  exact ⟨by decide, by decide, by decide, by decide⟩

/-- Witness for `applyChanges_failed_batch_conflict_count` at the concrete
conflict-then-throw page. -/
theorem applyChanges_failed_batch_conflict_count_witness :
    conflictThenFailResult.errors.length ≠ 0 ∧
    (((conflictThenFailResult.applied = 0 ∧
        conflictThenFailResult.db = conflictThenFailDb) ∧
      (conflictThenFailResult.conflicts = 1 ∧
        conflictThenFailResult.errors.length = 1 ∧
        conflictThenFailResult.applied = 0 ∧
        conflictThenFailResult.db.conflicts.length = 0))) :=
  ⟨by decide,
    applyChanges_failed_batch_conflict_count conflictThenFailChanges
      failingExampleHandler (some ⟨"global", none⟩)
      (some (defaultConflictDetector ("c-e1") 10)) conflictThenFailDb (by decide)⟩

/-! ## Delta runner (`deltaRunner.ts`) -/

/-- `DeltaPullResponse` from `adapters.ts`. -/
structure DeltaPullResponse where
  changes : List DeltaChange
  nextCursor : String
  hasMore : Option Bool
deriving DecidableEq

/-- `getCursor`: the persisted cursor for `(scope, collectionKey)`, with the
lazy default sentinel `'0'` (`DEFAULT_CURSOR`). -/
def getCursor (scope : Scope) (collectionKey : String) (db : DB) : String :=
  match db.cursors.find? (fun r =>
      decide (r.scopeKey = scopeKey scope ∧ r.collectionKey = collectionKey)) with
  | some r => r.cursor
  | none => "0"

/-- `setCursor`:
`INSERT ... ON CONFLICT(scope_key, collection_key) DO UPDATE SET cursor, updated_at`. -/
def setCursor (scope : Scope) (collectionKey cursor : String) (now : Int) (db : DB) : DB :=
  if db.cursors.any (fun r =>
      decide (r.scopeKey = scopeKey scope ∧ r.collectionKey = collectionKey)) then
    let cursors' := db.cursors.map fun r =>
      if r.scopeKey = scopeKey scope ∧ r.collectionKey = collectionKey then
        { r with cursor := cursor, updatedAt := now }
      else r
    { db with cursors := cursors' }
  else
    { db with cursors := db.cursors ++ [⟨scopeKey scope, collectionKey, cursor, now⟩] }

/-- The counters accumulated by `runDeltaPull`. -/
structure DeltaRunStats where
  pagesPulled : Nat
  totalChanges : Nat
  applied : Nat
  conflicts : Nat
  errors : Nat
deriving DecidableEq

/-- The `while` loop of `DeltaRunner.runDeltaPull`.  `adapter` maps a cursor
to the page `pullChanges` returns for it, `fuel` is the remaining page budget
(`maxPagesPerRun - pagesPulled`) and `cursor` the loop's `currentCursor`.
When the page has changes and a handler is configured, the page goes through
`applyChanges`; if that reports errors the loop stops without `setCursor`
(the failed page will be retried next run); otherwise the cursor is
persisted and the loop continues while `hasMore ?? false`. -/
def runDeltaLoop (adapter : String → DeltaPullResponse)
    (handler : Option DeltaChangeHandler) (det : Option ConflictDetector)
    (scope : Scope) (collectionKey : String) (now : Int) :
    Nat → String → DB → DeltaRunStats → DB × DeltaRunStats
  | 0, _, db, st => (db, st)
  | fuel + 1, cursor, db, st =>
      let resp := adapter cursor
      let st1 := { st with pagesPulled := st.pagesPulled + 1,
                           totalChanges := st.totalChanges + resp.changes.length }
      match handler with
      | some h =>
          if resp.changes.length ≠ 0 then
            let res := applyChanges resp.changes h (some scope) det db
            let st2 := { st1 with applied := st1.applied + res.applied,
                                  conflicts := st1.conflicts + res.conflicts,
                                  errors := st1.errors + res.errors.length }
            if res.errors.length ≠ 0 then (res.db, st2)
            else
              let db2 := setCursor scope collectionKey resp.nextCursor now res.db
              if resp.hasMore.getD false then
                runDeltaLoop adapter handler det scope collectionKey now fuel
                  resp.nextCursor db2 st2
              else (db2, st2)
          else
            let db2 := setCursor scope collectionKey resp.nextCursor now db
            if resp.hasMore.getD false then
              runDeltaLoop adapter handler det scope collectionKey now fuel
                resp.nextCursor db2 st1
            else (db2, st1)
      | none =>
          let db2 := setCursor scope collectionKey resp.nextCursor now db
          if resp.hasMore.getD false then
            runDeltaLoop adapter handler det scope collectionKey now fuel
              resp.nextCursor db2 st1
          else (db2, st1)

/-- `DeltaRunner.runDeltaPull`: loads the persisted cursor and runs the page
loop up to `maxPagesPerRun` times. -/
def runDeltaPull (adapter : String → DeltaPullResponse)
    (handler : Option DeltaChangeHandler) (det : Option ConflictDetector)
    (maxPagesPerRun : Nat) (scope : Scope) (collectionKey : String) (now : Int)
    (db : DB) : DB × DeltaRunStats :=
  runDeltaLoop adapter handler det scope collectionKey now maxPagesPerRun
    (getCursor scope collectionKey db) db ⟨0, 0, 0, 0, 0⟩

/-- C4: if the page pulled at the loop's current cursor has changes and its
batch application through `applyChanges` reports an error, the run stops on
that page with the database exactly as it was before the page: the persisted
cursor for `(scope, collectionKey)` equals its pre-page value (the loop
breaks before `setCursor`), no change of the page is visible (the batch
transaction was rolled back) and the page contributes `applied = 0`.
Instantiating `db` with the state reached after any successfully applied
prefix of pages makes this the statement for an arbitrary failing page of a
run. -/
theorem runDeltaPull_failed_page_no_progress
    (adapter : String → DeltaPullResponse) (h : DeltaChangeHandler)
    (det : Option ConflictDetector) (scope : Scope) (collectionKey : String)
    (now : Int) (fuel : Nat) (cursor : String) (db : DB) (st : DeltaRunStats)
    (hchanges : (adapter cursor).changes.length ≠ 0)
    (herr : (applyChanges (adapter cursor).changes h (some scope) det db).errors.length ≠ 0) :
    (runDeltaLoop adapter (some h) det scope collectionKey now (fuel + 1) cursor db st).1 =
      db ∧
    getCursor scope collectionKey
        (runDeltaLoop adapter (some h) det scope collectionKey now (fuel + 1) cursor db
          st).1 =
      getCursor scope collectionKey db ∧
    (runDeltaLoop adapter (some h) det scope collectionKey now (fuel + 1) cursor db
        st).2.applied = st.applied ∧
    (applyChanges (adapter cursor).changes h (some scope) det db).applied = 0 := by
  obtain ⟨ha0, hdb⟩ :=
    applyChanges_error_rollback (adapter cursor).changes h (some scope) det db herr
  simp only [runDeltaLoop]
  rw [if_pos hchanges, if_pos herr]
  refine ⟨hdb, ?_, ?_, ha0⟩
  · rw [hdb]
  · show st.applied + (applyChanges (adapter cursor).changes h (some scope) det db).applied =
      st.applied
    rw [ha0, Nat.add_zero]

/-- An adapter whose every page consists of the single change the failing
stub handler throws on. -/
def failingPageAdapter : String → DeltaPullResponse :=
  fun _ => { changes := [DeltaChange.upsert ("example_items") ("boom") Json.null 7],
             nextCursor := "1", hasMore := some false }

/-- The empty database. -/
def emptyDb : DB := { outbox := [], conflicts := [], exampleItems := [], cursors := [] }

/-- Witness for `runDeltaPull_failed_page_no_progress`: a one-change page
whose handler application throws, pulled into the empty database. -/
theorem runDeltaPull_failed_page_no_progress_witness :
    ((failingPageAdapter ("0")).changes.length ≠ 0 ∧
      (applyChanges (failingPageAdapter ("0")).changes failingExampleHandler
          (some ⟨"global", none⟩) none emptyDb).errors.length ≠ 0) ∧
    ((runDeltaLoop failingPageAdapter (some failingExampleHandler) none ⟨"global", none⟩
          ("items") 7 (9 + 1) ("0") emptyDb ⟨0, 0, 0, 0, 0⟩).1 = emptyDb ∧
      getCursor ⟨"global", none⟩ ("items")
          (runDeltaLoop failingPageAdapter (some failingExampleHandler) none
            ⟨"global", none⟩ ("items") 7 (9 + 1) ("0") emptyDb ⟨0, 0, 0, 0, 0⟩).1 =
        getCursor ⟨"global", none⟩ ("items") emptyDb ∧
      (runDeltaLoop failingPageAdapter (some failingExampleHandler) none ⟨"global", none⟩
          ("items") 7 (9 + 1) ("0") emptyDb ⟨0, 0, 0, 0, 0⟩).2.applied =
        (⟨0, 0, 0, 0, 0⟩ : DeltaRunStats).applied ∧
      (applyChanges (failingPageAdapter ("0")).changes failingExampleHandler
          (some ⟨"global", none⟩) none emptyDb).applied = 0) :=
  ⟨⟨by decide, by decide⟩,
    runDeltaPull_failed_page_no_progress failingPageAdapter failingExampleHandler none
      ⟨"global", none⟩ ("items") 7 9 ("0") emptyDb ⟨0, 0, 0, 0, 0⟩
      (by decide) (by decide)⟩

/-! ## Outbox queue operations (`outbox.ts`) -/

/-- `Outbox.resetStaleInFlight`: `UPDATE outbox_ops SET state = 'pending',
updated_at = now WHERE scope_key = ? AND state = 'in_flight' AND
updated_at < now - staleMs` (crash/kill recovery for stale claims). -/
def resetStaleInFlight (scope : Scope) (now staleMs : Int) (outbox : List OutboxOp) :
    List OutboxOp :=
  outbox.map fun op =>
    if op.scopeKey = scopeKey scope ∧ op.state = OutboxOpState.inFlight ∧
        op.updatedAt < now - staleMs then
      { op with state := OutboxOpState.pending, updatedAt := now }
    else op

/-- `Outbox.getPending`: `SELECT * WHERE scope_key = ? AND state = 'pending'
ORDER BY created_at ASC LIMIT ?` (read-only). -/
def getPending (scope : Scope) (limit : Nat) (outbox : List OutboxOp) : List OutboxOp :=
  ((outbox.filter fun op =>
      decide (op.scopeKey = scopeKey scope ∧ op.state = OutboxOpState.pending)).insertionSort
    (fun a b => a.createdAt ≤ b.createdAt)).take limit

/-- `Outbox.claimByIds`: `UPDATE outbox_ops SET state = 'in_flight',
updated_at = now WHERE id IN (...) AND state = 'pending'`. -/
def claimByIds (opIds : List String) (now : Int) (outbox : List OutboxOp) :
    List OutboxOp :=
  outbox.map fun op =>
    if op.id ∈ opIds ∧ op.state = OutboxOpState.pending then
      { op with state := OutboxOpState.inFlight, updatedAt := now }
    else op

/-- `Outbox.getByIds`: `SELECT * WHERE id IN (...)` (table order). -/
def getByIds (opIds : List String) (outbox : List OutboxOp) : List OutboxOp :=
  outbox.filter fun op => decide (op.id ∈ opIds)

/-- `Outbox.claimPending`: reclaim stale in-flight rows (default staleness
5 minutes), select up to `limit` pending rows FIFO, atomically mark them
in-flight, and re-read the claimed rows.  Returns (claimed rows, new table). -/
def claimPending (scope : Scope) (limit : Nat) (now : Int) (outbox : List OutboxOp) :
    List OutboxOp × List OutboxOp :=
  let ob1 := resetStaleInFlight scope now 300000 outbox
  let pending := getPending scope limit ob1
  let opIds := pending.map fun op => op.id
  let ob2 := claimByIds opIds now ob1
  (getByIds opIds ob2, ob2)

/-- `Outbox.updateState`: `UPDATE outbox_ops SET state = ?, last_error_json = ?,
updated_at = ? WHERE id = ?`. -/
def updateState (opId : String) (st : OutboxOpState) (err : Option PushError) (now : Int)
    (outbox : List OutboxOp) : List OutboxOp :=
  outbox.map fun op =>
    if op.id = opId then { op with state := st, lastError := err, updatedAt := now }
    else op

/-- `Outbox.markForRetry`: `UPDATE outbox_ops SET state = 'pending',
attempt_count = attempt_count + 1, updated_at = ? WHERE id = ?`. -/
def markForRetry (opId : String) (now : Int) (outbox : List OutboxOp) : List OutboxOp :=
  outbox.map fun op =>
    if op.id = opId then
      { op with state := OutboxOpState.pending, attemptCount := op.attemptCount + 1,
                updatedAt := now }
    else op

/-! ## Outbox processor (`networkStatus.ts`, `OutboxProcessor`) -/

/-- `OutboxPushResult` from `adapters.ts`. -/
inductive PushResult where
  | succeeded (opId : String)
  | failed (opId : String) (retryable : Bool) (error : PushError)
  | blocked (opId : String) (reason : String)
deriving DecidableEq

/-- The `opId` key of a push result. -/
def PushResult.opId : PushResult → String
  | .succeeded i => i
  | .failed i _ _ => i
  | .blocked i _ => i

/-- The error recorded on an op whose attempts are exhausted. -/
def maxAttemptsError : PushError :=
  { code := "max_attempts", message := "Max retry attempts reached" }

/-- The error recorded on a claimed op the adapter returned no result for. -/
def missingResultError : PushError :=
  { code := "missing_result",
    message := "Adapter did not return a result for this operation" }

/-- The result-reconciliation loop of `processBatch`: for each claimed op,
look the adapter result up by op id (`resultsById`) and update its row —
missing result: `markForRetry` plus a `pending` update with
`missingResultError`; `succeeded`: terminal success (counted); retryable
failure with attempts remaining: `markForRetry` plus a `pending` update with
the error; other failure: terminal `failed`; `blocked`: terminal `blocked`. -/
def reconcileResults (cfg : OutboxProcessorConfig) (now : Int)
    (resultsById : String → Option PushResult) :
    List OutboxOp → List OutboxOp → Nat → List OutboxOp × Nat
  | [], outbox, n => (outbox, n)
  | op :: rest, outbox, n =>
      match resultsById op.id with
      | none =>
          reconcileResults cfg now resultsById rest
            (updateState op.id OutboxOpState.pending (some missingResultError) now
              (markForRetry op.id now outbox)) n
      | some (.succeeded _) =>
          reconcileResults cfg now resultsById rest
            (updateState op.id OutboxOpState.succeeded none now outbox) (n + 1)
      | some (.failed _ retryable err) =>
          if retryable = true ∧ op.attemptCount + 1 < cfg.maxAttempts then
            reconcileResults cfg now resultsById rest
              (updateState op.id OutboxOpState.pending (some err) now
                (markForRetry op.id now outbox)) n
          else
            reconcileResults cfg now resultsById rest
              (updateState op.id OutboxOpState.failed (some err) now outbox) n
      | some (.blocked _ reason) =>
          reconcileResults cfg now resultsById rest
            (updateState op.id OutboxOpState.blocked
              (some { code := "blocked", message := reason }) now outbox) n

/-- The exhausted-op sweep step of `processBatch`:
`updateState(op.id, 'failed', maxAttemptsError)`. -/
def failExhausted (now : Int) (ob : List OutboxOp) (op : OutboxOp) : List OutboxOp :=
  updateState op.id OutboxOpState.failed (some maxAttemptsError) now ob

/-- The working set fetched by `processBatch`: stale reclaim, then up to
`batchSize * 5` pending rows FIFO. -/
def processWorkingSet (cfg : OutboxProcessorConfig) (scope : Scope) (now : Int)
    (outbox : List OutboxOp) : List OutboxOp :=
  getPending scope (cfg.batchSize * 5) (resetStaleInFlight scope now 300000 outbox)

/-- The ready set of `processBatch`: retry candidates (attempts remaining)
whose backoff has elapsed, capped at `batchSize`. -/
def processReadyOps (cfg : OutboxProcessorConfig) (scope : Scope) (rand : String → ℚ)
    (now : Int) (outbox : List OutboxOp) : List OutboxOp :=
  (((processWorkingSet cfg scope now outbox).filter fun op =>
      decide (op.attemptCount < cfg.maxAttempts)).filter fun op =>
    isBackoffElapsed op cfg now (rand op.id)).take cfg.batchSize

/-- The outcome of one `processBatch` call: the returned count of
newly-succeeded ops, the new `outbox_ops` table, and whether the push
adapter was invoked. -/
structure ProcessOutcome where
  count : Nat
  outbox : List OutboxOp
  adapterCalled : Bool
deriving DecidableEq

/-- `OutboxProcessor.processBatch` from `networkStatus.ts`.  `isProcessing`
is the instance's reentrancy flag at call time; `pushOps` the push adapter;
`rand` the per-op `Math.random()` draws (keyed by op id); `now` the clock.
Steps: reentrancy guard; stale reclaim + working-set fetch; exhausted ops
(`attemptCount ≥ maxAttempts`) are terminally failed; ready ops are claimed,
pushed, and reconciled. -/
def processBatch (cfg : OutboxProcessorConfig) (pushOps : List OutboxOp → List PushResult)
    (rand : String → ℚ) (now : Int) (isProcessing : Bool) (scope : Scope)
    (outbox : List OutboxOp) : ProcessOutcome :=
  if isProcessing then ⟨0, outbox, false⟩
  else
    let ob1 := resetStaleInFlight scope now 300000 outbox
    let pendingOps := processWorkingSet cfg scope now outbox
    if pendingOps.length = 0 then ⟨0, ob1, false⟩
    else
      let exhaustedOps := pendingOps.filter fun op =>
        decide (cfg.maxAttempts ≤ op.attemptCount)
      let ob2 := exhaustedOps.foldl (failExhausted now) ob1
      let readyOps := processReadyOps cfg scope rand now outbox
      if readyOps.length = 0 then ⟨0, ob2, false⟩
      else
        let ob3 := claimByIds (readyOps.map fun op => op.id) now ob2
        let results := pushOps readyOps
        let resultsById := fun i => results.find? fun r => r.opId = i
        match reconcileResults cfg now resultsById readyOps ob3 0 with
        | (ob4, n) => ⟨n, ob4, true⟩

/-- C8: while the reentrancy flag `isProcessing` of a processor instance is
set, a further `processBatch` call returns 0 immediately, changes no outbox
row and never invokes the push adapter. -/
theorem processBatch_reentrant_noop (cfg : OutboxProcessorConfig)
    (pushOps : List OutboxOp → List PushResult) (rand : String → ℚ) (now : Int)
    (scope : Scope) (outbox : List OutboxOp) :
    processBatch cfg pushOps rand now true scope outbox =
      ⟨0, outbox, false⟩ := rfl

/-- C6: three pending ops of one scope enqueued at `t1 < t2 < t3`; a
`claimPending` of limit 2 returns exactly the two oldest ops — FIFO by
`createdAt` — now transitioned to `in_flight`, and the table keeps the third
op pending. -/
theorem claimPending_fifo (scope : Scope) (o1 o2 o3 : OutboxOp) (now : Int)
    (hs1 : o1.scopeKey = scopeKey scope) (hs2 : o2.scopeKey = scopeKey scope)
    (hs3 : o3.scopeKey = scopeKey scope)
    (hp1 : o1.state = OutboxOpState.pending) (hp2 : o2.state = OutboxOpState.pending)
    (hp3 : o3.state = OutboxOpState.pending)
    (ht12 : o1.createdAt < o2.createdAt) (ht23 : o2.createdAt < o3.createdAt)
    (_hid12 : o1.id ≠ o2.id) (hid13 : o1.id ≠ o3.id) (hid23 : o2.id ≠ o3.id) :
    claimPending scope 2 now [o1, o2, o3] =
      ([{ o1 with state := OutboxOpState.inFlight, updatedAt := now },
        { o2 with state := OutboxOpState.inFlight, updatedAt := now }],
       [{ o1 with state := OutboxOpState.inFlight, updatedAt := now },
        { o2 with state := OutboxOpState.inFlight, updatedAt := now }, o3]) ∧
    (∀ q ∈ (claimPending scope 2 now [o1, o2, o3]).1,
      q.state = OutboxOpState.inFlight) := by
  have h12 : o1.createdAt ≤ o2.createdAt := le_of_lt ht12
  have h23 : o2.createdAt ≤ o3.createdAt := le_of_lt ht23
  have stage1 : resetStaleInFlight scope now 300000 [o1, o2, o3] = [o1, o2, o3] := by
    simp [resetStaleInFlight, hp1, hp2, hp3]
  have stage2 : getPending scope 2 [o1, o2, o3] = [o1, o2] := by
    simp [getPending, hs1, hs2, hs3, hp1, hp2, hp3, List.insertionSort,
      List.orderedInsert, h12, h23]
  have stage3 : claimByIds [o1.id, o2.id] now [o1, o2, o3] =
      [{ o1 with state := OutboxOpState.inFlight, updatedAt := now },
       { o2 with state := OutboxOpState.inFlight, updatedAt := now }, o3] := by
    simp [claimByIds, hp1, hp2, hp3, Ne.symm hid13, Ne.symm hid23]
  have stage4 : getByIds [o1.id, o2.id]
      [{ o1 with state := OutboxOpState.inFlight, updatedAt := now },
       { o2 with state := OutboxOpState.inFlight, updatedAt := now }, o3] =
      [{ o1 with state := OutboxOpState.inFlight, updatedAt := now },
       { o2 with state := OutboxOpState.inFlight, updatedAt := now }] := by
    simp [getByIds, Ne.symm hid13, Ne.symm hid23]
  have key : claimPending scope 2 now [o1, o2, o3] =
      ([{ o1 with state := OutboxOpState.inFlight, updatedAt := now },
        { o2 with state := OutboxOpState.inFlight, updatedAt := now }],
       [{ o1 with state := OutboxOpState.inFlight, updatedAt := now },
        { o2 with state := OutboxOpState.inFlight, updatedAt := now }, o3]) := by
    unfold claimPending
    simp only []
    rw [stage1, stage2]
    simp only [List.map]
    rw [stage3, stage4]
  refine ⟨key, ?_⟩
  rw [key]
  intro q hq
  rcases List.mem_cons.mp hq with rfl | hq2
  · rfl
  · rcases List.mem_cons.mp hq2 with rfl | hq3
    · rfl
    · exact absurd hq3 (List.not_mem_nil q)

/-- The first enqueued op of the FIFO witness (createdAt 1). -/
def fifoOp1 : OutboxOp :=
  { id := "a", scopeKey := "global", entityKey := "items", opType := .upsert,
    idempotencyKey := "i1", payloadJson := "\x7b\x7d", attemptCount := 0,
    state := .pending, lastError := none, createdAt := 1, updatedAt := 1 }

/-- The second enqueued op of the FIFO witness (createdAt 2). -/
def fifoOp2 : OutboxOp :=
  { id := "b", scopeKey := "global", entityKey := "items", opType := .upsert,
    idempotencyKey := "i2", payloadJson := "\x7b\x7d", attemptCount := 0,
    state := .pending, lastError := none, createdAt := 2, updatedAt := 2 }

/-- The third enqueued op of the FIFO witness (createdAt 3). -/
def fifoOp3 : OutboxOp :=
  { id := "c", scopeKey := "global", entityKey := "items", opType := .upsert,
    idempotencyKey := "i3", payloadJson := "\x7b\x7d", attemptCount := 0,
    state := .pending, lastError := none, createdAt := 3, updatedAt := 3 }

/-- Witness for `claimPending_fifo` at three concrete pending ops enqueued
at times 1 < 2 < 3. -/
theorem claimPending_fifo_witness :
    (fifoOp1.scopeKey = scopeKey ⟨"global", none⟩ ∧
      fifoOp2.scopeKey = scopeKey ⟨"global", none⟩ ∧
      fifoOp3.scopeKey = scopeKey ⟨"global", none⟩ ∧
      fifoOp1.state = OutboxOpState.pending ∧
      fifoOp2.state = OutboxOpState.pending ∧
      fifoOp3.state = OutboxOpState.pending ∧
      fifoOp1.createdAt < fifoOp2.createdAt ∧ fifoOp2.createdAt < fifoOp3.createdAt ∧
      fifoOp1.id ≠ fifoOp2.id ∧ fifoOp1.id ≠ fifoOp3.id ∧ fifoOp2.id ≠ fifoOp3.id) ∧
    (claimPending ⟨"global", none⟩ 2 9 [fifoOp1, fifoOp2, fifoOp3] =
      ([{ fifoOp1 with state := OutboxOpState.inFlight, updatedAt := 9 },
        { fifoOp2 with state := OutboxOpState.inFlight, updatedAt := 9 }],
       [{ fifoOp1 with state := OutboxOpState.inFlight, updatedAt := 9 },
        { fifoOp2 with state := OutboxOpState.inFlight, updatedAt := 9 }, fifoOp3]) ∧
    (∀ q ∈ (claimPending ⟨"global", none⟩ 2 9 [fifoOp1, fifoOp2, fifoOp3]).1,
      q.state = OutboxOpState.inFlight)) :=
  ⟨⟨by decide, by decide, by decide, by decide, by decide, by decide, by decide,
      by decide, by decide, by decide, by decide⟩,
    claimPending_fifo ⟨"global", none⟩ fifoOp1 fifoOp2 fifoOp3 9
      (by decide) (by decide) (by decide) (by decide) (by decide) (by decide)
      (by decide) (by decide) (by decide) (by decide) (by decide)⟩

/-! ## Row-preservation lemmas for the processor (towards C5) -/

theorem mem_map_self {α : Type} {f : α → α} {a : α} {l : List α}
    (hmem : a ∈ l) (hfix : f a = a) : a ∈ l.map f := by
  have h2 := List.mem_map_of_mem f hmem
  rwa [hfix] at h2

/-- `resetStaleInFlight` only touches `in_flight` rows. -/
theorem mem_resetStaleInFlight_of_not_inFlight {op : OutboxOp} {outbox : List OutboxOp}
    (hmem : op ∈ outbox) (hst : op.state ≠ OutboxOpState.inFlight)
    (scope : Scope) (now staleMs : Int) :
    op ∈ resetStaleInFlight scope now staleMs outbox := by
  unfold resetStaleInFlight
  refine mem_map_self hmem ?_
  rw [if_neg]
  rintro ⟨-, h2, -⟩
  exact hst h2

/-- `claimByIds` only touches `pending` rows. -/
theorem mem_claimByIds_of_not_pending {op : OutboxOp} {outbox : List OutboxOp}
    (hmem : op ∈ outbox) (hst : op.state ≠ OutboxOpState.pending)
    (opIds : List String) (now : Int) :
    op ∈ claimByIds opIds now outbox := by
  unfold claimByIds
  refine mem_map_self hmem ?_
  rw [if_neg]
  rintro ⟨-, h2⟩
  exact hst h2

/-- `updateState` only touches the row with the given id. -/
theorem mem_updateState_of_ne {op : OutboxOp} {outbox : List OutboxOp} {opId : String}
    (hmem : op ∈ outbox) (hne : op.id ≠ opId) (st : OutboxOpState)
    (err : Option PushError) (now : Int) :
    op ∈ updateState opId st err now outbox := by
  unfold updateState
  exact mem_map_self hmem (if_neg hne)

/-- `markForRetry` only touches the row with the given id. -/
theorem mem_markForRetry_of_ne {op : OutboxOp} {outbox : List OutboxOp} {opId : String}
    (hmem : op ∈ outbox) (hne : op.id ≠ opId) (now : Int) :
    op ∈ markForRetry opId now outbox := by
  unfold markForRetry
  exact mem_map_self hmem (if_neg hne)

/-- `updateState` rewrites the row with the given id as stated. -/
theorem mem_updateState_target {op : OutboxOp} {outbox : List OutboxOp}
    (hmem : op ∈ outbox) (st : OutboxOpState) (err : Option PushError) (now : Int) :
    { op with state := st, lastError := err, updatedAt := now } ∈
      updateState op.id st err now outbox := by
  unfold updateState
  have h2 := List.mem_map_of_mem
    (fun o => if o.id = op.id then { o with state := st, lastError := err, updatedAt := now }
      else o) hmem
  simpa using h2

/-- `claimByIds` marks a selected pending row in-flight. -/
theorem mem_claimByIds_target {op : OutboxOp} {outbox : List OutboxOp} {opIds : List String}
    (hmem : op ∈ outbox) (hid : op.id ∈ opIds) (hst : op.state = OutboxOpState.pending)
    (now : Int) :
    { op with state := OutboxOpState.inFlight, updatedAt := now } ∈
      claimByIds opIds now outbox := by
  unfold claimByIds
  have h2 := List.mem_map_of_mem
    (fun o => if o.id ∈ opIds ∧ o.state = OutboxOpState.pending then
      { o with state := OutboxOpState.inFlight, updatedAt := now } else o) hmem
  simpa [hid, hst] using h2

/-- Updates of the shape used by the outbox preserve the id column of every
row. -/
theorem map_comp_id_eq {f : OutboxOp → OutboxOp} (hf : ∀ o, (f o).id = o.id)
    (l : List OutboxOp) : (l.map f).map (fun o => o.id) = l.map fun o => o.id := by
  rw [List.map_map]
  induction l with
  | nil => rfl
  | cons x xs ih => simp only [List.map_cons, Function.comp_apply, hf, ih]

theorem map_id_resetStaleInFlight (scope : Scope) (now staleMs : Int)
    (outbox : List OutboxOp) :
    ((resetStaleInFlight scope now staleMs outbox).map fun o => o.id) =
      outbox.map fun o => o.id := by
  unfold resetStaleInFlight
  refine map_comp_id_eq (fun o => ?_) outbox
  by_cases h : o.scopeKey = scopeKey scope ∧ o.state = OutboxOpState.inFlight ∧
      o.updatedAt < now - staleMs
  · rw [if_pos h]
  · rw [if_neg h]

/-- A row returned by `getPending` is a pending row of the scope, present in
the table. -/
theorem mem_getPending {scope : Scope} {limit : Nat} {outbox : List OutboxOp}
    {op : OutboxOp} (h : op ∈ getPending scope limit outbox) :
    op ∈ outbox ∧ op.scopeKey = scopeKey scope ∧ op.state = OutboxOpState.pending := by
  unfold getPending at h
  have h1 := List.mem_of_mem_take h
  have h2 := (List.perm_insertionSort
    (fun a b : OutboxOp => a.createdAt ≤ b.createdAt) _).mem_iff.mp h1
  have h3 := List.mem_filter.mp h2
  exact ⟨h3.1, of_decide_eq_true h3.2⟩

/-- `getPending` keeps the id column duplicate-free. -/
theorem nodup_ids_getPending {scope : Scope} {limit : Nat} {outbox : List OutboxOp}
    (h : (outbox.map fun o => o.id).Nodup) :
    ((getPending scope limit outbox).map fun o => o.id).Nodup := by
  unfold getPending
  have hfil : (((outbox.filter fun op =>
      decide (op.scopeKey = scopeKey scope ∧ op.state = OutboxOpState.pending)).map
        fun o => o.id)).Nodup :=
    h.sublist ((List.filter_sublist outbox).map fun o => o.id)
  have hsort := (((List.perm_insertionSort
    (fun a b : OutboxOp => a.createdAt ≤ b.createdAt)
    (outbox.filter fun op =>
      decide (op.scopeKey = scopeKey scope ∧
        op.state = OutboxOpState.pending))).map fun o => o.id)).nodup_iff.mpr hfil
  exact List.Nodup.sublist ((List.take_sublist _ _).map fun o : OutboxOp => o.id) hsort

/-- The exhausted-op sweep leaves every row with a different id unchanged. -/
theorem mem_foldl_failExhausted_of_ne (now : Int) (es : List OutboxOp) :
    ∀ (ob : List OutboxOp) (op : OutboxOp),
      (∀ e ∈ es, e.id ≠ op.id) → op ∈ ob → op ∈ es.foldl (failExhausted now) ob := by
  induction es with
  | nil => intro ob op _ hmem; simpa using hmem
  | cons e rest ih =>
      intro ob op hne hmem
      simp only [List.foldl_cons]
      refine ih _ op (fun x hx => hne x (List.mem_cons_of_mem e hx)) ?_
      exact mem_updateState_of_ne hmem
        (fun h => hne e (List.mem_cons_self e rest) h.symm) _ _ _

/-- The exhausted-op sweep marks every listed row failed with the
max-attempts error (given duplicate-free ids). -/
theorem mem_foldl_failExhausted_target (now : Int) (es : List OutboxOp) :
    ∀ (ob : List OutboxOp) (e : OutboxOp), e ∈ es → e ∈ ob →
      ((es.map fun o => o.id)).Nodup →
      { e with state := OutboxOpState.failed, lastError := some maxAttemptsError,
               updatedAt := now } ∈ es.foldl (failExhausted now) ob := by
  induction es with
  | nil => intro ob e he _ _; exact absurd he (List.not_mem_nil e)
  | cons e1 rest ih =>
      intro ob e he hmem hnd
      simp only [List.map_cons, List.nodup_cons] at hnd
      obtain ⟨hnotin, hndrest⟩ := hnd
      simp only [List.foldl_cons]
      rcases List.mem_cons.mp he with rfl | hrest
      · have htgt := mem_updateState_target hmem OutboxOpState.failed
          (some maxAttemptsError) now
        refine mem_foldl_failExhausted_of_ne now rest _ _ ?_ htgt
        intro x hx h
        exact hnotin (h ▸ List.mem_map_of_mem (fun o => o.id) hx)
      · have h1 : e ∈ failExhausted now ob e1 :=
          mem_updateState_of_ne hmem
            (fun h => hnotin (by rw [← h]; exact List.mem_map_of_mem (fun o => o.id) hrest))
            _ _ _
        exact ih _ e hrest h1 hndrest

/-- The result-reconciliation loop leaves every row whose id is not among
the claimed ops unchanged. -/
theorem mem_reconcileResults_of_ne (cfg : OutboxProcessorConfig) (now : Int)
    (resultsById : String → Option PushResult) (ros : List OutboxOp) :
    ∀ (ob : List OutboxOp) (n : Nat) (op : OutboxOp),
      (∀ r ∈ ros, r.id ≠ op.id) → op ∈ ob →
      op ∈ (reconcileResults cfg now resultsById ros ob n).1 := by
  induction ros with
  | nil => intro ob n op _ hmem; simpa [reconcileResults] using hmem
  | cons r rest ih =>
      intro ob n op hne hmem
      have hne' : op.id ≠ r.id := fun h => hne r (List.mem_cons_self r rest) h.symm
      have hrest : ∀ x ∈ rest, x.id ≠ op.id :=
        fun x hx => hne x (List.mem_cons_of_mem r hx)
      unfold reconcileResults
      cases hres : resultsById r.id with
      | none =>
          exact ih _ _ op hrest
            (mem_updateState_of_ne (mem_markForRetry_of_ne hmem hne' _) hne' _ _ _)
      | some pr =>
          cases pr with
          | succeeded i =>
              exact ih _ _ op hrest (mem_updateState_of_ne hmem hne' _ _ _)
          | failed i retryable err =>
              dsimp only
              by_cases hc : retryable = true ∧ r.attemptCount + 1 < cfg.maxAttempts
              · rw [if_pos hc]
                exact ih _ _ op hrest
                  (mem_updateState_of_ne (mem_markForRetry_of_ne hmem hne' _) hne' _ _ _)
              · rw [if_neg hc]
                exact ih _ _ op hrest (mem_updateState_of_ne hmem hne' _ _ _)
          | blocked i reason =>
              exact ih _ _ op hrest (mem_updateState_of_ne hmem hne' _ _ _)

/-- A claimed op whose adapter result is a failure that is non-retryable, or
retryable with attempts exhausted, is terminally failed by the
result-reconciliation loop (given duplicate-free claimed ids). -/
theorem mem_reconcileResults_failed_target (cfg : OutboxProcessorConfig) (now : Int)
    (resultsById : String → Option PushResult) (ros : List OutboxOp) :
    ∀ (ob : List OutboxOp) (n : Nat) (op : OutboxOp) (i : String) (retryable : Bool)
      (err : PushError),
      op ∈ ros → ((ros.map fun o => o.id)).Nodup →
      { op with state := OutboxOpState.inFlight, updatedAt := now } ∈ ob →
      resultsById op.id = some (.failed i retryable err) →
      ¬(retryable = true ∧ op.attemptCount + 1 < cfg.maxAttempts) →
      { op with state := OutboxOpState.failed, lastError := some err, updatedAt := now } ∈
        (reconcileResults cfg now resultsById ros ob n).1 := by
  induction ros with
  | nil => intro ob n op i rb err hmem _ _ _ _; exact absurd hmem (List.not_mem_nil op)
  | cons r rest ih =>
      intro ob n op i rb err hmem hnd hc hres hnr
      simp only [List.map_cons, List.nodup_cons] at hnd
      obtain ⟨hnotin, hndrest⟩ := hnd
      rcases List.mem_cons.mp hmem with rfl | hrest2
      · unfold reconcileResults
        rw [hres]
        dsimp only
        rw [if_neg hnr]
        have htgt := mem_updateState_target hc OutboxOpState.failed (some err) now
        refine mem_reconcileResults_of_ne cfg now resultsById rest _ _ _ ?_ htgt
        intro x hx h
        exact hnotin (h ▸ List.mem_map_of_mem (fun o => o.id) hx)
      · have hner : op.id ≠ r.id :=
          fun h => hnotin (by rw [← h]; exact List.mem_map_of_mem (fun o => o.id) hrest2)
        unfold reconcileResults
        cases hres2 : resultsById r.id with
        | none =>
            exact ih _ _ op i rb err hrest2 hndrest
              (mem_updateState_of_ne (mem_markForRetry_of_ne hc hner _) hner _ _ _)
              hres hnr
        | some pr =>
            cases pr with
            | succeeded j =>
                exact ih _ _ op i rb err hrest2 hndrest
                  (mem_updateState_of_ne hc hner _ _ _) hres hnr
            | failed j rb2 err2 =>
                dsimp only
                by_cases hc2 : rb2 = true ∧ r.attemptCount + 1 < cfg.maxAttempts
                · rw [if_pos hc2]
                  exact ih _ _ op i rb err hrest2 hndrest
                    (mem_updateState_of_ne (mem_markForRetry_of_ne hc hner _) hner _ _ _)
                    hres hnr
                · rw [if_neg hc2]
                  exact ih _ _ op i rb err hrest2 hndrest
                    (mem_updateState_of_ne hc hner _ _ _) hres hnr
            | blocked j reason =>
                exact ih _ _ op i rb err hrest2 hndrest
                  (mem_updateState_of_ne hc hner _ _ _) hres hnr

/-- A row of `processReadyOps` belongs to the working set and has attempts
remaining. -/
theorem mem_processReadyOps {cfg : OutboxProcessorConfig} {scope : Scope}
    {rand : String → ℚ} {now : Int} {outbox : List OutboxOp} {op : OutboxOp}
    (h : op ∈ processReadyOps cfg scope rand now outbox) :
    op ∈ processWorkingSet cfg scope now outbox ∧ op.attemptCount < cfg.maxAttempts := by
  unfold processReadyOps at h
  have h1 := List.mem_of_mem_take h
  have h2 := List.mem_filter.mp h1
  have h3 := List.mem_filter.mp h2.1
  exact ⟨h3.1, of_decide_eq_true h3.2⟩

theorem nodup_ids_processWorkingSet (cfg : OutboxProcessorConfig) (scope : Scope)
    (now : Int) (outbox : List OutboxOp) (hnd : (outbox.map fun o => o.id).Nodup) :
    ((processWorkingSet cfg scope now outbox).map fun o => o.id).Nodup := by
  unfold processWorkingSet
  refine nodup_ids_getPending ?_
  rw [map_id_resetStaleInFlight]
  exact hnd

theorem nodup_ids_processReadyOps (cfg : OutboxProcessorConfig) (scope : Scope)
    (rand : String → ℚ) (now : Int) (outbox : List OutboxOp)
    (hnd : (outbox.map fun o => o.id).Nodup) :
    ((processReadyOps cfg scope rand now outbox).map fun o => o.id).Nodup := by
  unfold processReadyOps
  refine List.Nodup.sublist ((List.take_sublist _ _).map fun o : OutboxOp => o.id) ?_
  refine List.Nodup.sublist ((List.filter_sublist _).map fun o : OutboxOp => o.id) ?_
  refine List.Nodup.sublist ((List.filter_sublist _).map fun o : OutboxOp => o.id) ?_
  exact nodup_ids_processWorkingSet cfg scope now outbox hnd

/-- Rows with equal ids in a duplicate-free table are the same row. -/
theorem eq_of_mem_of_id_eq {l : List OutboxOp} (hnd : (l.map fun o => o.id).Nodup)
    {a b : OutboxOp} (ha : a ∈ l) (hb : b ∈ l) (h : a.id = b.id) : a = b :=
  List.inj_on_of_nodup_map hnd ha hb h

/-- (C5 part) `processBatch` preserves every terminal (`succeeded`/`failed`)
row unchanged: the stale reclaim only touches `in_flight` rows, the
exhausted sweep and the reconciliation only update rows fetched as
`pending`, and `claimByIds` has a `state = 'pending'` guard. -/
theorem processBatch_keeps_terminal (cfg : OutboxProcessorConfig)
    (pushOps : List OutboxOp → List PushResult) (rand : String → ℚ) (now : Int)
    (scope : Scope) (outbox : List OutboxOp)
    (hnd : (outbox.map fun o => o.id).Nodup) (op : OutboxOp) (hmem : op ∈ outbox)
    (hterm : op.state = OutboxOpState.succeeded ∨ op.state = OutboxOpState.failed) :
    op ∈ (processBatch cfg pushOps rand now false scope outbox).outbox := by
  have hnif : op.state ≠ OutboxOpState.inFlight := by
    rcases hterm with h | h <;> rw [h] <;> intro hcon <;> exact OutboxOpState.noConfusion hcon
  have hnp : op.state ≠ OutboxOpState.pending := by
    rcases hterm with h | h <;> rw [h] <;> intro hcon <;> exact OutboxOpState.noConfusion hcon
  have hmem1 : op ∈ resetStaleInFlight scope now 300000 outbox :=
    mem_resetStaleInFlight_of_not_inFlight hmem hnif scope now 300000
  have hnd1 : ((resetStaleInFlight scope now 300000 outbox).map fun o => o.id).Nodup := by
    rw [map_id_resetStaleInFlight]
    exact hnd
  have hpne : ∀ p ∈ processWorkingSet cfg scope now outbox, p.id ≠ op.id := by
    intro p hp h
    have hf := mem_getPending hp
    have hpeq : p = op := eq_of_mem_of_id_eq hnd1 hf.1 hmem1 h
    rw [hpeq] at hf
    exact hnp hf.2.2
  unfold processBatch
  rw [if_neg Bool.false_ne_true]
  dsimp only
  by_cases hp0 : (processWorkingSet cfg scope now outbox).length = 0
  · rw [if_pos hp0]
    exact hmem1
  · rw [if_neg hp0]
    have hmem2 : op ∈ ((processWorkingSet cfg scope now outbox).filter fun o =>
        decide (cfg.maxAttempts ≤ o.attemptCount)).foldl (failExhausted now)
        (resetStaleInFlight scope now 300000 outbox) := by
      refine mem_foldl_failExhausted_of_ne now _ _ op ?_ hmem1
      intro e he
      exact hpne e (List.mem_of_mem_filter he)
    by_cases hr0 : (processReadyOps cfg scope rand now outbox).length = 0
    · rw [if_pos hr0]
      exact hmem2
    · rw [if_neg hr0]
      have hmem3 := mem_claimByIds_of_not_pending hmem2 hnp
        ((processReadyOps cfg scope rand now outbox).map fun o => o.id) now
      have hready : ∀ r ∈ processReadyOps cfg scope rand now outbox, r.id ≠ op.id :=
        fun r hr => hpne r (mem_processReadyOps hr).1
      exact mem_reconcileResults_of_ne cfg now _
        (processReadyOps cfg scope rand now outbox) _ 0 op hready hmem3

/-- (C5 part) every op of the fetched working set whose attempts are
exhausted (`attemptCount ≥ maxAttempts`) is terminally `failed` with the
max-attempts error in the table `processBatch` leaves behind. -/
theorem processBatch_fails_exhausted (cfg : OutboxProcessorConfig)
    (pushOps : List OutboxOp → List PushResult) (rand : String → ℚ) (now : Int)
    (scope : Scope) (outbox : List OutboxOp)
    (hnd : (outbox.map fun o => o.id).Nodup) (op : OutboxOp)
    (hop : op ∈ processWorkingSet cfg scope now outbox)
    (hex : cfg.maxAttempts ≤ op.attemptCount) :
    { op with state := OutboxOpState.failed, lastError := some maxAttemptsError,
              updatedAt := now } ∈
      (processBatch cfg pushOps rand now false scope outbox).outbox := by
  have hp0 : (processWorkingSet cfg scope now outbox).length ≠ 0 := by
    intro h0
    rw [List.length_eq_zero] at h0
    rw [h0] at hop
    exact absurd hop (List.not_mem_nil op)
  have hgf := mem_getPending hop
  have hndws := nodup_ids_processWorkingSet cfg scope now outbox hnd
  have hexmem : op ∈ (processWorkingSet cfg scope now outbox).filter fun o =>
      decide (cfg.maxAttempts ≤ o.attemptCount) :=
    List.mem_filter.mpr ⟨hop, decide_eq_true hex⟩
  have hndex : (((processWorkingSet cfg scope now outbox).filter fun o =>
      decide (cfg.maxAttempts ≤ o.attemptCount)).map fun o => o.id).Nodup :=
    List.Nodup.sublist ((List.filter_sublist _).map fun o : OutboxOp => o.id) hndws
  have htgt := mem_foldl_failExhausted_target now _ _ op hexmem hgf.1 hndex
  unfold processBatch
  rw [if_neg Bool.false_ne_true]
  dsimp only
  rw [if_neg hp0]
  by_cases hr0 : (processReadyOps cfg scope rand now outbox).length = 0
  · rw [if_pos hr0]
    exact htgt
  · rw [if_neg hr0]
    have h3 := mem_claimByIds_of_not_pending htgt
      (fun hcon => OutboxOpState.noConfusion hcon)
      ((processReadyOps cfg scope rand now outbox).map fun o => o.id) now
    have hready_ne : ∀ r ∈ processReadyOps cfg scope rand now outbox, r.id ≠ op.id := by
      intro r hr h
      have hrf := mem_processReadyOps hr
      have hreq : r = op := eq_of_mem_of_id_eq hndws hrf.1 hop h
      rw [hreq] at hrf
      exact absurd hrf.2 (not_lt.mpr hex)
    exact mem_reconcileResults_of_ne cfg now _
      (processReadyOps cfg scope rand now outbox) _ 0 _ hready_ne h3

/-- (C5 part) `claimPending` neither returns a terminal row nor changes it:
terminal rows survive the stale reclaim and the `state = 'pending'` guard of
`claimByIds`, and the claimed ids all come from pending rows. -/
theorem claimPending_keeps_terminal (scope : Scope) (limit : Nat) (now : Int)
    (outbox : List OutboxOp) (hnd : (outbox.map fun o => o.id).Nodup)
    (op : OutboxOp) (hmem : op ∈ outbox)
    (hterm : op.state = OutboxOpState.succeeded ∨ op.state = OutboxOpState.failed) :
    op ∈ (claimPending scope limit now outbox).2 ∧
    ∀ q ∈ (claimPending scope limit now outbox).1, q.id ≠ op.id := by
  have hnif : op.state ≠ OutboxOpState.inFlight := by
    rcases hterm with h | h <;> rw [h] <;> intro hcon <;> exact OutboxOpState.noConfusion hcon
  have hnp : op.state ≠ OutboxOpState.pending := by
    rcases hterm with h | h <;> rw [h] <;> intro hcon <;> exact OutboxOpState.noConfusion hcon
  have hmem1 : op ∈ resetStaleInFlight scope now 300000 outbox :=
    mem_resetStaleInFlight_of_not_inFlight hmem hnif scope now 300000
  have hnd1 : ((resetStaleInFlight scope now 300000 outbox).map fun o => o.id).Nodup := by
    rw [map_id_resetStaleInFlight]
    exact hnd
  constructor
  · exact mem_claimByIds_of_not_pending hmem1 hnp _ now
  · intro q hq h
    have hq2 := List.mem_filter.mp hq
    have hqid : q.id ∈ (getPending scope limit
        (resetStaleInFlight scope now 300000 outbox)).map fun o => o.id :=
      of_decide_eq_true hq2.2
    obtain ⟨p, hp, hpid⟩ := List.mem_map.mp hqid
    have hpf := mem_getPending hp
    have hpeq : p = op := eq_of_mem_of_id_eq hnd1 hpf.1 hmem1 (by rw [hpid, h])
    rw [hpeq] at hpf
    exact hnp hpf.2.2

/-- (C5 part) a ready op claimed by `processBatch` whose push result is a
non-retryable failure — or a retryable one with its attempts exhausted — is
terminally `failed` with that error in the resulting table. -/
theorem processBatch_final_failure (cfg : OutboxProcessorConfig)
    (pushOps : List OutboxOp → List PushResult) (rand : String → ℚ) (now : Int)
    (scope : Scope) (outbox : List OutboxOp)
    (hnd : (outbox.map fun o => o.id).Nodup) (op : OutboxOp) (i : String)
    (retryable : Bool) (err : PushError)
    (hop : op ∈ processReadyOps cfg scope rand now outbox)
    (hres : ((pushOps (processReadyOps cfg scope rand now outbox)).find?
        fun r => r.opId = op.id) = some (.failed i retryable err))
    (hnr : ¬(retryable = true ∧ op.attemptCount + 1 < cfg.maxAttempts)) :
    { op with state := OutboxOpState.failed, lastError := some err, updatedAt := now } ∈
      (processBatch cfg pushOps rand now false scope outbox).outbox := by
  have hrf := mem_processReadyOps hop
  have hgf := mem_getPending hrf.1
  have hndws := nodup_ids_processWorkingSet cfg scope now outbox hnd
  have hndro := nodup_ids_processReadyOps cfg scope rand now outbox hnd
  have hp0 : (processWorkingSet cfg scope now outbox).length ≠ 0 := by
    intro h0
    rw [List.length_eq_zero] at h0
    rw [h0] at hrf
    exact absurd hrf.1 (List.not_mem_nil op)
  have hr0 : (processReadyOps cfg scope rand now outbox).length ≠ 0 := by
    intro h0
    rw [List.length_eq_zero] at h0
    rw [h0] at hop
    exact absurd hop (List.not_mem_nil op)
  have hmem2 : op ∈ ((processWorkingSet cfg scope now outbox).filter fun o =>
      decide (cfg.maxAttempts ≤ o.attemptCount)).foldl (failExhausted now)
      (resetStaleInFlight scope now 300000 outbox) := by
    refine mem_foldl_failExhausted_of_ne now _ _ op ?_ hgf.1
    intro e he h
    have hef := List.mem_filter.mp he
    have heq : e = op := eq_of_mem_of_id_eq hndws hef.1 hrf.1 h
    rw [heq] at hef
    exact absurd hrf.2 (not_lt.mpr (of_decide_eq_true hef.2))
  have hmem3 := mem_claimByIds_target hmem2
    (List.mem_map_of_mem (fun o : OutboxOp => o.id) hop) hgf.2.2 now
  unfold processBatch
  rw [if_neg Bool.false_ne_true]
  dsimp only
  rw [if_neg hp0, if_neg hr0]
  exact mem_reconcileResults_failed_target cfg now _
    (processReadyOps cfg scope rand now outbox) _ 0 op i retryable err hop hndro
    hmem3 hres hnr

/-- C5: once an outbox op is `succeeded` or `failed` its state is terminal
for the processor.  With duplicate-free ids (the `id` column is the primary
key): (i) `processBatch` leaves every terminal row unchanged and
`claimPending` neither returns it nor changes it (both only select `pending`
rows and `resetStaleInFlight` only touches `in_flight` rows); (ii) every
fetched pending op with `attemptCount ≥ maxAttempts` is terminally `failed`
with the max-attempts error; (iii) every claimed op whose push result is a
failure that is non-retryable or out of attempts is terminally `failed` with
that error. -/
theorem outbox_terminal_states (cfg : OutboxProcessorConfig)
    (pushOps : List OutboxOp → List PushResult) (rand : String → ℚ) (now : Int)
    (scope : Scope) (limit : Nat) (outbox : List OutboxOp)
    (hnd : (outbox.map fun o => o.id).Nodup) :
    (∀ op ∈ outbox,
      op.state = OutboxOpState.succeeded ∨ op.state = OutboxOpState.failed →
      op ∈ (processBatch cfg pushOps rand now false scope outbox).outbox ∧
      op ∈ (claimPending scope limit now outbox).2 ∧
      ∀ q ∈ (claimPending scope limit now outbox).1, q.id ≠ op.id) ∧
    (∀ op ∈ processWorkingSet cfg scope now outbox,
      cfg.maxAttempts ≤ op.attemptCount →
      { op with state := OutboxOpState.failed, lastError := some maxAttemptsError,
                updatedAt := now } ∈
        (processBatch cfg pushOps rand now false scope outbox).outbox) ∧
    (∀ op ∈ processReadyOps cfg scope rand now outbox,
      ∀ (i : String) (retryable : Bool) (err : PushError),
      ((pushOps (processReadyOps cfg scope rand now outbox)).find?
          fun r => r.opId = op.id) = some (.failed i retryable err) →
      ¬(retryable = true ∧ op.attemptCount + 1 < cfg.maxAttempts) →
      { op with state := OutboxOpState.failed, lastError := some err,
                updatedAt := now } ∈
        (processBatch cfg pushOps rand now false scope outbox).outbox) := by
  refine ⟨?_, ?_, ?_⟩
  · intro op hmem hterm
    refine ⟨processBatch_keeps_terminal cfg pushOps rand now scope outbox hnd op hmem
      hterm, ?_, ?_⟩
    · exact (claimPending_keeps_terminal scope limit now outbox hnd op hmem hterm).1
    · exact (claimPending_keeps_terminal scope limit now outbox hnd op hmem hterm).2
  · intro op hop hex
    exact processBatch_fails_exhausted cfg pushOps rand now scope outbox hnd op hop hex
  · intro op hop i retryable err hres hnr
    exact processBatch_final_failure cfg pushOps rand now scope outbox hnd op i
      retryable err hop hres hnr

/-- A succeeded op (terminal) for the C5 witness. -/
def termWitnessOp : OutboxOp :=
  { id := "s", scopeKey := "global", entityKey := "items", opType := .upsert,
    idempotencyKey := "ks", payloadJson := "\x7b\x7d", attemptCount := 1,
    state := .succeeded, lastError := none, createdAt := 1, updatedAt := 1 }

/-- A pending op with exhausted attempts for the C5 witness. -/
def exhaustedWitnessOp : OutboxOp :=
  { id := "x", scopeKey := "global", entityKey := "items", opType := .upsert,
    idempotencyKey := "kx", payloadJson := "\x7b\x7d", attemptCount := 5,
    state := .pending, lastError := none, createdAt := 2, updatedAt := 2 }

/-- A fresh pending op for the C5 witness. -/
def readyWitnessOp : OutboxOp :=
  { id := "r", scopeKey := "global", entityKey := "items", opType := .upsert,
    idempotencyKey := "kr", payloadJson := "\x7b\x7d", attemptCount := 0,
    state := .pending, lastError := none, createdAt := 3, updatedAt := 3 }

/-- The C5 witness table. -/
def terminalWitnessOutbox : List OutboxOp :=
  [termWitnessOp, exhaustedWitnessOp, readyWitnessOp]

/-- A push adapter whose every result is a non-retryable failure. -/
def terminalWitnessPush : List OutboxOp → List PushResult :=
  fun ops => ops.map fun o =>
    PushResult.failed o.id false { code := "persist", message := "non-retryable" }

/-- A fixed `Math.random()` draw. -/
def halfRand : String → ℚ := fun _ => 1 / 2

/-- Witness for `outbox_terminal_states` on a three-op table (one succeeded,
one exhausted pending, one fresh pending) with an always-failing adapter. -/
theorem outbox_terminal_states_witness :
    ((terminalWitnessOutbox.map fun o => o.id)).Nodup ∧
    ((∀ op ∈ terminalWitnessOutbox,
      op.state = OutboxOpState.succeeded ∨ op.state = OutboxOpState.failed →
      op ∈ (processBatch defaultProcessorConfig terminalWitnessPush halfRand 1000 false
        ⟨"global", none⟩ terminalWitnessOutbox).outbox ∧
      op ∈ (claimPending ⟨"global", none⟩ 2 1000 terminalWitnessOutbox).2 ∧
      ∀ q ∈ (claimPending ⟨"global", none⟩ 2 1000 terminalWitnessOutbox).1,
        q.id ≠ op.id) ∧
    (∀ op ∈ processWorkingSet defaultProcessorConfig ⟨"global", none⟩ 1000
        terminalWitnessOutbox,
      defaultProcessorConfig.maxAttempts ≤ op.attemptCount →
      { op with state := OutboxOpState.failed, lastError := some maxAttemptsError,
                updatedAt := 1000 } ∈
        (processBatch defaultProcessorConfig terminalWitnessPush halfRand 1000 false
          ⟨"global", none⟩ terminalWitnessOutbox).outbox) ∧
    (∀ op ∈ processReadyOps defaultProcessorConfig ⟨"global", none⟩ halfRand 1000
        terminalWitnessOutbox,
      ∀ (i : String) (retryable : Bool) (err : PushError),
      ((terminalWitnessPush (processReadyOps defaultProcessorConfig ⟨"global", none⟩
          halfRand 1000 terminalWitnessOutbox)).find?
          fun r => r.opId = op.id) = some (.failed i retryable err) →
      ¬(retryable = true ∧ op.attemptCount + 1 < defaultProcessorConfig.maxAttempts) →
      { op with state := OutboxOpState.failed, lastError := some err,
                updatedAt := 1000 } ∈
        (processBatch defaultProcessorConfig terminalWitnessPush halfRand 1000 false
          ⟨"global", none⟩ terminalWitnessOutbox).outbox)) :=
  ⟨by decide,
    outbox_terminal_states defaultProcessorConfig terminalWitnessPush halfRand 1000
      ⟨"global", none⟩ 2 terminalWitnessOutbox (by decide)⟩
